import Mathlib

/-!
Verification of the Python analyser plugin (`python_analyser.py`).

The development shallowly embeds the analyser's core logic:
* the per-file line classifier and metrics calculator (`__calculate_metrics`),
* the single-file node builder (`__analyse_file`),
* the recursive hierarchy builder (`__build_hierarchy`),
* the orchestrator (`analyse`).

Python strings are modelled as `List Char` (`PyStr`), so that all string
operations are executable and kernel-reducible; `str` injects Lean string
literals.  External collaborators (Python's `ast.parse`-based definition
counting, `fnmatch`, the filesystem, `datetime.now`, `os.path.getmtime`)
are modelled as explicit oracle parameters: a file entry carries the
outcome of reading it (`none` when any exception escapes the
read/decode/mtime/metrics block) and the outcome of `ast.parse` (`none`
on `SyntaxError`); `fnmatch.fnmatch` is a function parameter `fm`.
-/

namespace PythonAnalyser

/-- Python strings, as lists of code points. -/
abbrev PyStr := List Char

/-- Injection of a Lean string literal into the model's string type. -/
def str (s : String) : PyStr := s.toList

/-- The whitespace characters removed by Python's `str.strip()`
(ASCII subset; the analyser only strips per-line source text). -/
def isPySpace (c : Char) : Bool :=
  c = ' ' || c = '\t' || c = '\n' || c = '\r' || c = '\x0b' || c = '\x0c'

/-- Python `line.strip()`. -/
def pyStrip (s : PyStr) : PyStr :=
  ((s.dropWhile isPySpace).reverse.dropWhile isPySpace).reverse

/-- Python `s.split(sep)` for a one-character separator: delimited
segments; the empty text yields one empty segment, and a trailing
separator yields a final empty segment. -/
def splitOnChar (sep : Char) : PyStr → List PyStr
  | [] => [[]]
  | c :: rest =>
    if c = sep then [] :: splitOnChar sep rest
    else
      match splitOnChar sep rest with
      | [] => [[c]]
      | l :: ls => (c :: l) :: ls

/-- Python `content.split("\n")`. -/
def splitLines : PyStr → List PyStr := splitOnChar '\n'

/-- Python `s.count(pat)`: non-overlapping occurrences of `pat` in `s`,
scanning left to right (used with the three-character quote markers). -/
def countSub (pat : PyStr) : PyStr → Nat
  | [] => 0
  | c :: rest =>
    if pat.isPrefixOf (c :: rest) then countSub pat (List.drop (pat.length - 1) rest) + 1
    else countSub pat rest
termination_by s => s.length
decreasing_by
  · simp only [List.length_cons]
    have h := List.length_drop (pat.length - 1) rest
    omega
  · simp

/-- Python `pat in s`: substring containment. -/
def hasSub (pat : PyStr) : PyStr → Bool
  | [] => pat.isEmpty
  | c :: rest => pat.isPrefixOf (c :: rest) || hasSub pat rest

/-- The `"""` marker. -/
def dq : PyStr := ['"', '"', '"']

/-- The `'''` marker. -/
def sq : PyStr := ['\'', '\'', '\'']

/-- The classifier's loop state: the two mutable flags
(`in_multiline_string`, `multiline_quote`) and the counters.  The `other`
counter is not a variable of the source; it counts the lines the source
loop leaves uncounted (blank lines), so that line-exclusivity can be
stated. -/
structure ClassState where
  inBlock : Bool
  quote : Option PyStr
  code : Nat
  comment : Nat
  other : Nat
deriving Repr, DecidableEq

/-- Initial loop state: `in_multiline_string = False`, `multiline_quote = None`,
all counters zero. -/
def initState : ClassState := ⟨false, none, 0, 0, 0⟩

/-- The tail of the loop body reached when no `continue` fired: `#` lines
are comments, other non-empty lines are code, blank lines are neither. -/
def restOfLine (st : ClassState) (stripped : PyStr) : ClassState :=
  if ['#'].isPrefixOf stripped then { st with comment := st.comment + 1 }
  else if stripped ≠ [] && !st.inBlock then { st with code := st.code + 1 }
  else { st with other := st.other + 1 }

/-- One iteration of the classifier loop of `__calculate_metrics`. -/
def classifyLine (st : ClassState) (line : PyStr) : ClassState :=
  let stripped := pyStrip line
  if !st.inBlock then
    if dq.isPrefixOf stripped || sq.isPrefixOf stripped then
      let q := stripped.take 3
      let st1 := { st with quote := some q }
      if countSub q stripped = 1 then
        { st1 with inBlock := true, comment := st1.comment + 1 }
      else if 2 ≤ countSub q stripped then
        { st1 with comment := st1.comment + 1 }
      else restOfLine st1 stripped
    else restOfLine st stripped
  else
    let st1 := { st with comment := st.comment + 1 }
    match st1.quote with
    | some q =>
      if hasSub q stripped then { st1 with inBlock := false, quote := none } else st1
    | none => st1

/-- The classifier run over all lines of a content. -/
def classifyContent (content : PyStr) : ClassState :=
  (splitLines content).foldl classifyLine initState

/-- `"def "` — the keyword scanned for by the fallback counter. -/
def defKw : PyStr := ['d', 'e', 'f', ' ']

/-- One iteration of the fallback definition-counting loop (used when
`ast.parse` raised `SyntaxError`). -/
def fallbackNomStep (cnt : Nat) (line : PyStr) : Nat :=
  let stripped := pyStrip line
  if defKw.isPrefixOf stripped && [':'].isSuffixOf stripped then cnt + 1 else cnt

/-- `__calculate_metrics`.  `astNom` is the oracle for
`ast.parse` + `__count_functions_and_methods`: `some n` when parsing
succeeds and the tree holds `n` function/method definitions, `none` when
`ast.parse` raised `SyntaxError` (then the textual fallback loop runs,
and nothing is raised out of the metrics step).  The returned association
list preserves the key order of the source's dict literal; the numeric
values are the (non-negative integral) metric values. -/
def calculateMetrics (astNom : Option Nat) (content : PyStr) : List (PyStr × Nat) :=
  let lines := splitLines content
  let totalLines := lines.length
  let st := classifyContent content
  let methodCnt : Nat :=
    match astNom with
    | some n => n
    | none => lines.foldl fallbackNomStep 0
  [(str "loc", st.code), (str "cloc", st.comment), (str "nom", methodCnt),
   (str "tloc", totalLines)]

/-- A metric definition of the report's catalog. -/
structure MetricDef where
  id : PyStr
  name : PyStr
  description : PyStr
  type : PyStr
  aggregate : PyStr
  propagate : Bool
deriving Repr, DecidableEq

/-- A node of the produced hierarchy: either a file node (with its
language tag, last-modified timestamp, metrics mapping and the reserved
`uses`/`usedBy` lists) or a folder node with ordered children. -/
inductive HierarchyNode where
  | file (name language lastModified : PyStr) (metrics : List (PyStr × Nat))
      (uses usedBy : List PyStr)
  | folder (name : PyStr) (children : List HierarchyNode)
deriving Repr

/-- The final report object. -/
structure ProjectData where
  version : PyStr
  title : PyStr
  description : PyStr
  metrics : List MetricDef
  hierarchy : HierarchyNode
deriving Repr

/-- `__analyse_file`.  `read` is the oracle for the `try` block's
interactions with the outside world: `some content` when reading,
decoding and `os.path.getmtime` succeed (then `mtime` is the ISO string
obtained), `none` when any exception escapes the block (unreadable file,
undecodable bytes, a non-`SyntaxError` failure of `ast.parse`, ...).
`now` is the oracle for `datetime.now().isoformat()`. -/
def analyseFile (now : PyStr) (name : PyStr) (read : Option PyStr)
    (astNom : Option Nat) (mtime : PyStr) : HierarchyNode :=
  match read with
  | some content =>
    .file name (str "python") mtime (calculateMetrics astNom content) [] []
  | none =>
    .file name (str "python") now
      [(str "loc", 0), (str "cloc", 0), (str "nom", 0), (str "tloc", 0)] [] []

/-- A filesystem entry: the input of the hierarchy builder.  A file
carries the oracles of `analyseFile`; a directory carries its entries in
the (arbitrary) order the filesystem enumerates them.  An entry's `name`
is `os.path.basename` of its path. -/
inductive FSEntry where
  | file (name : PyStr) (read : Option PyStr) (astNom : Option Nat) (mtime : PyStr)
  | dir (name : PyStr) (entries : List FSEntry)
deriving Repr

/-- The name of a filesystem entry. -/
def FSEntry.name : FSEntry → PyStr
  | .file n _ _ _ => n
  | .dir n _ => n

/-- The ordering relation of Python's `sorted(os.listdir(...))`:
lexicographic comparison of the entry names by code point. -/
def nameLe (a b : FSEntry) : Prop := a.name ≤ b.name

instance : DecidableRel nameLe := fun a b => inferInstanceAs (Decidable (a.name ≤ b.name))

instance : IsTotal FSEntry nameLe := ⟨fun a b => le_total a.name b.name⟩

instance : IsTrans FSEntry nameLe := ⟨fun _ _ _ hab hbc => le_trans hab hbc⟩

/-- `__should_exclude_directory`: exact name membership. -/
def shouldExcludeDirectory (dirName : PyStr) (excludeDirs : List PyStr) : Bool :=
  if excludeDirs.isEmpty then false else excludeDirs.contains dirName

/-- `__should_exclude_file`.  `fm` is the oracle for `fnmatch.fnmatch`;
the source tests the bare name and the full path against each pattern. -/
def shouldExcludeFile (fm : PyStr → PyStr → Bool) (filePath fileName : PyStr)
    (excludeFiles : List PyStr) : Bool :=
  if excludeFiles.isEmpty then false
  else excludeFiles.any (fun pat => fm fileName pat || fm filePath pat)

/-- `__build_hierarchy`.  A file delegates to `analyseFile`; a directory
sorts its entries by name, then appends, in order: nothing for hidden
entries, the recursive folder node for a non-excluded directory when it
has at least one child, and the file node for a non-excluded `.py` file.
Directory enumeration is modelled as always succeeding (the source's
`except` branches return the same folder node with the children gathered
so far). -/
def buildHierarchy (fm : PyStr → PyStr → Bool) (now : PyStr)
    (excludeDirs excludeFiles : List PyStr) (curPath : PyStr) : FSEntry → HierarchyNode
  | .file name read astNom mtime => analyseFile now name read astNom mtime
  | .dir name entries =>
    .folder name
      (((entries.insertionSort nameLe).attach.map (fun item =>
        let iname := item.1.name
        let ipath := curPath ++ ['/'] ++ iname
        if ['.'].isPrefixOf iname then []
        else
          match item.1 with
          | .dir _ _ =>
            if shouldExcludeDirectory iname excludeDirs then []
            else
              match buildHierarchy fm now excludeDirs excludeFiles ipath item.1 with
              | .folder n2 cs => if cs.isEmpty then [] else [.folder n2 cs]
              | .file _ _ _ _ _ _ => []
          | .file _ _ _ _ =>
            if shouldExcludeFile fm ipath iname excludeFiles then []
            else if (str ".py").isSuffixOf iname then
              [buildHierarchy fm now excludeDirs excludeFiles ipath item.1]
            else [])).flatten)
termination_by e => sizeOf e
decreasing_by
  all_goals
    have hlt := List.sizeOf_lt_of_mem ((List.mem_insertionSort nameLe).mp item.2)
    simp only [FSEntry.dir.sizeOf_spec] at *
    omega

/-- The per-item children contribution of the directory loop of
`__build_hierarchy`, as a standalone function (`buildHierarchy_dir` shows
the builder's children are the concatenation of these contributions over
the name-sorted entries). -/
def itemContribution (fm : PyStr → PyStr → Bool) (now : PyStr)
    (excludeDirs excludeFiles : List PyStr) (curPath : PyStr) (item : FSEntry) :
    List HierarchyNode :=
  let iname := item.name
  let ipath := curPath ++ ['/'] ++ iname
  if ['.'].isPrefixOf iname then []
  else
    match item with
    | .dir _ _ =>
      if shouldExcludeDirectory iname excludeDirs then []
      else
        match buildHierarchy fm now excludeDirs excludeFiles ipath item with
        | .folder n2 cs => if cs.isEmpty then [] else [.folder n2 cs]
        | .file _ _ _ _ _ _ => []
    | .file _ _ _ _ =>
      if shouldExcludeFile fm ipath iname excludeFiles then []
      else if (str ".py").isSuffixOf iname then
        [buildHierarchy fm now excludeDirs excludeFiles ipath item]
      else []

/-- `__parse_csv_param`. -/
def parseCsvParam (param : PyStr) : List PyStr :=
  if pyStrip param = [] then []
  else ((splitOnChar ',' param).map pyStrip).filter (fun s => s ≠ [])

/-- The fixed metric catalog `all_metrics`, in the source's insertion
order. -/
def allMetrics : List MetricDef :=
  [⟨str "loc", str "Lines of Code", str "Number of non-empty, non-comment lines",
    str "number", str "sum", true⟩,
   ⟨str "cloc", str "Comment Lines", str "Number of comment lines",
    str "number", str "sum", true⟩,
   ⟨str "nom", str "Method Count", str "Number of methods and functions",
    str "number", str "sum", true⟩,
   ⟨str "tloc", str "Total Lines", str "Total number of lines in file",
    str "number", str "sum", true⟩]

/-- `analyse`.  `root` is the filesystem oracle for the input directory
path: `none` when `os.path.exists` is false, otherwise the entry found
there (its `name` is `os.path.basename(input_dir)`).  `absBase` is the
oracle for `os.path.basename(os.path.abspath(input_dir))`.  A raised
`ValueError` is modelled as `.error` with the message. -/
def analyse (fm : PyStr → PyStr → Bool) (now : PyStr) (inputDir : PyStr)
    (root : Option FSEntry) (absBase : PyStr)
    (title descr : Option PyStr)
    (excludeDirsCsv excludeFilesCsv metricsCsv : PyStr) : Except PyStr ProjectData :=
  match root with
  | none => .error (str "Input directory does not exist: " ++ inputDir)
  | some rootEntry =>
    let excludeDirsList := parseCsvParam excludeDirsCsv
    let excludeFilesList := parseCsvParam excludeFilesCsv
    let requestedMetricIds := parseCsvParam metricsCsv
    let metricsToCompute : Option (List MetricDef) :=
      if requestedMetricIds.isEmpty then some allMetrics
      else
        let sel := requestedMetricIds.filterMap
          (fun mid => allMetrics.find? (fun m => m.id == mid))
        if sel.isEmpty then none else some sel
    match metricsToCompute with
    | none =>
      .error (str "No valid metrics found in: " ++ List.intercalate (str ",") requestedMetricIds)
    | some mtc =>
      let hierarchy := buildHierarchy fm now excludeDirsList excludeFilesList inputDir rootEntry
      let projectTitle := title.getD absBase
      let projectDescription := descr.getD (str "Analysis of " ++ projectTitle)
      .ok ⟨str "1.0", projectTitle, projectDescription, mtc, hierarchy⟩

mutual

/-- Nesting depth of a filesystem entry (executable; used as fuel). -/
def fuelOf : FSEntry → Nat
  | .file _ _ _ _ => 1
  | .dir _ es => fuelList es + 1

/-- Maximum nesting depth of a list of entries. -/
def fuelList : List FSEntry → Nat
  | [] => 0
  | e :: rest => max (fuelOf e) (fuelList rest)

end

/-- Fuel-indexed twin of `buildHierarchy`. -/
def buildHierarchyFuel (fm : PyStr → PyStr → Bool) (now : PyStr)
    (excludeDirs excludeFiles : List PyStr) : Nat → PyStr → FSEntry → HierarchyNode
  | _, _, .file name read astNom mtime => analyseFile now name read astNom mtime
  | 0, _, .dir name _ => .folder name []
  | fuel + 1, curPath, .dir name entries =>
    .folder name
      ((entries.insertionSort nameLe).flatMap (fun item =>
        let iname := item.name
        let ipath := curPath ++ ['/'] ++ iname
        if ['.'].isPrefixOf iname then []
        else
          match item with
          | .dir _ _ =>
            if shouldExcludeDirectory iname excludeDirs then []
            else
              match buildHierarchyFuel fm now excludeDirs excludeFiles fuel ipath item with
              | .folder n2 cs => if cs.isEmpty then [] else [.folder n2 cs]
              | .file _ _ _ _ _ _ => []
          | .file _ _ _ _ =>
            if shouldExcludeFile fm ipath iname excludeFiles then []
            else if (str ".py").isSuffixOf iname then
              [buildHierarchyFuel fm now excludeDirs excludeFiles fuel ipath item]
            else []))

/-- Twin of `analyse` computing the hierarchy through the fuel twin. -/
def analyseFuel (fm : PyStr → PyStr → Bool) (now : PyStr) (inputDir : PyStr)
    (root : Option FSEntry) (absBase : PyStr)
    (title descr : Option PyStr)
    (excludeDirsCsv excludeFilesCsv metricsCsv : PyStr) : Except PyStr ProjectData :=
  match root with
  | none => .error (str "Input directory does not exist: " ++ inputDir)
  | some rootEntry =>
    let excludeDirsList := parseCsvParam excludeDirsCsv
    let excludeFilesList := parseCsvParam excludeFilesCsv
    let requestedMetricIds := parseCsvParam metricsCsv
    let metricsToCompute : Option (List MetricDef) :=
      if requestedMetricIds.isEmpty then some allMetrics
      else
        let sel := requestedMetricIds.filterMap
          (fun mid => allMetrics.find? (fun m => m.id == mid))
        if sel.isEmpty then none else some sel
    match metricsToCompute with
    | none =>
      .error (str "No valid metrics found in: " ++ List.intercalate (str ",") requestedMetricIds)
    | some mtc =>
      let hierarchy := buildHierarchyFuel fm now excludeDirsList excludeFilesList
        (fuelOf rootEntry) inputDir rootEntry
      let projectTitle := title.getD absBase
      let projectDescription := descr.getD (str "Analysis of " ++ projectTitle)
      .ok ⟨str "1.0", projectTitle, projectDescription, mtc, hierarchy⟩

/-- The name of a hierarchy node. -/
def HierarchyNode.nodeName : HierarchyNode → PyStr
  | .file n _ _ _ _ _ => n
  | .folder n _ => n

/-- The child list of a node (empty for file nodes). -/
def HierarchyNode.childrenOf : HierarchyNode → List HierarchyNode
  | .file _ _ _ _ _ _ => []
  | .folder _ cs => cs

/-- Whether a node is a file node. -/
def HierarchyNode.isFileNode : HierarchyNode → Bool
  | .file _ _ _ _ _ _ => true
  | .folder _ _ => false

/-- The metrics mapping of a node (empty for folder nodes). -/
def HierarchyNode.metricsOf : HierarchyNode → List (PyStr × Nat)
  | .file _ _ _ m _ _ => m
  | .folder _ _ => []

mutual

/-- Whether every file node in a hierarchy has exactly the key list `ks`
as its metrics mapping's keys (in order). -/
def allFileMetricKeys (ks : List PyStr) : HierarchyNode → Bool
  | .file _ _ _ m _ _ => m.map Prod.fst == ks
  | .folder _ cs => allFileMetricKeysList ks cs

/-- `allFileMetricKeys` over a child list. -/
def allFileMetricKeysList (ks : List PyStr) : List HierarchyNode → Bool
  | [] => true
  | c :: rest => allFileMetricKeys ks c && allFileMetricKeysList ks rest

end

/-- A trivial `fnmatch` oracle (no pattern matches), for concrete runs
with empty exclusion lists. -/
def noFm : PyStr → PyStr → Bool := fun _ _ => false

/-- A node acceptable as a child: file nodes always, folder nodes only
when non-empty. -/
def childOk : HierarchyNode → Bool
  | .file _ _ _ _ _ _ => true
  | .folder _ cs => !cs.isEmpty

mutual

/-- Whether no folder anywhere below the node sits in a child list with
zero children. -/
def noEmptyFolders : HierarchyNode → Bool
  | .file _ _ _ _ _ _ => true
  | .folder _ cs => noEmptyFoldersList cs

/-- `noEmptyFolders` over a child list, also requiring each child to be
acceptable (`childOk`). -/
def noEmptyFoldersList : List HierarchyNode → Bool
  | [] => true
  | c :: rest => (childOk c && noEmptyFolders c) && noEmptyFoldersList rest

end

/-! ### Unfolding and evaluation scaffolding for the hierarchy builder

`buildHierarchy` is defined by well-founded recursion, so concrete runs
do not reduce inside the kernel.  `buildHierarchyFuel` is a fuel-indexed
twin, structurally recursive on the fuel, proved equal to
`buildHierarchy` whenever the fuel covers the entry's nesting depth
(`fuelOf`); `analyseFuel` is the corresponding twin of `analyse`. -/

/-- Unfolding of `buildHierarchy` on a file path. -/
theorem buildHierarchy_file (fm : PyStr → PyStr → Bool) (now : PyStr)
    (xd xf : List PyStr) (p n : PyStr) (r : Option PyStr) (a : Option Nat)
    (m : PyStr) :
    buildHierarchy fm now xd xf p (.file n r a m) = analyseFile now n r a m := by
  rw [buildHierarchy]

/-- Unfolding of `buildHierarchy` on a directory: the children are the
concatenation of the per-item contributions over the name-sorted entries. -/
theorem buildHierarchy_dir (fm : PyStr → PyStr → Bool) (now : PyStr)
    (xd xf : List PyStr) (p n : PyStr) (es : List FSEntry) :
    buildHierarchy fm now xd xf p (.dir n es) =
      .folder n ((es.insertionSort nameLe).flatMap (itemContribution fm now xd xf p)) := by
  rw [buildHierarchy]
  congr 1
  rw [List.flatMap_def]
  congr 1
  rw [← List.attach_map_val (es.insertionSort nameLe) (itemContribution fm now xd xf p)]
  rfl

theorem fuelOf_pos (e : FSEntry) : 1 ≤ fuelOf e := by
  cases e
  · rw [fuelOf]
  · rw [fuelOf]; omega

theorem fuelOf_le_fuelList (es : List FSEntry) (e : FSEntry) (h : e ∈ es) :
    fuelOf e ≤ fuelList es := by
  induction es with
  | nil => cases h
  | cons a rest ih =>
    rw [fuelList]
    rcases List.mem_cons.mp h with h1 | h2
    · subst h1; exact le_max_left _ _
    · exact le_trans (ih h2) (le_max_right _ _)

theorem fuelList_eq_zero (es : List FSEntry) (h : fuelList es = 0) : es = [] := by
  cases es with
  | nil => rfl
  | cons a rest =>
    exfalso
    rw [fuelList] at h
    have := fuelOf_pos a
    omega

theorem buildHierarchyFuel_eq (fm : PyStr → PyStr → Bool) (now : PyStr)
    (xd xf : List PyStr) :
    ∀ fuel e p, fuelOf e ≤ fuel + 1 →
      buildHierarchyFuel fm now xd xf fuel p e = buildHierarchy fm now xd xf p e := by
  intro fuel
  induction fuel with
  | zero =>
    intro e p h
    match e with
    | .file n r a m => rw [buildHierarchyFuel, buildHierarchy_file]
    | .dir n es =>
      rw [fuelOf] at h
      have hes : es = [] := fuelList_eq_zero es (by omega)
      subst hes
      rw [buildHierarchyFuel, buildHierarchy_dir]
      rfl
  | succ fuel ih =>
    intro e p h
    match e with
    | .file n r a m => rw [buildHierarchyFuel, buildHierarchy_file]
    | .dir n es =>
      rw [buildHierarchyFuel, buildHierarchy_dir]
      congr 1
      rw [List.flatMap_def, List.flatMap_def]
      congr 1
      apply List.map_congr_left
      intro item hmem
      have hs : fuelOf item ≤ fuel + 1 := by
        have hm2 : item ∈ es := (List.mem_insertionSort nameLe).mp hmem
        have hle := fuelOf_le_fuelList es item hm2
        rw [fuelOf] at h
        omega
      cases item with
      | file n2 r a m => simp only [itemContribution, ih _ _ hs]
      | dir n2 es2 => simp only [itemContribution, ih _ _ hs]

/-- `buildHierarchy` evaluated through its fuel twin. -/
theorem buildHierarchy_eval (fm : PyStr → PyStr → Bool) (now : PyStr)
    (xd xf : List PyStr) (p : PyStr) (e : FSEntry) :
    buildHierarchy fm now xd xf p e = buildHierarchyFuel fm now xd xf (fuelOf e) p e :=
  (buildHierarchyFuel_eq fm now xd xf (fuelOf e) e p (by omega)).symm

/-- `analyse` evaluated through its fuel twin. -/
theorem analyse_eval (fm : PyStr → PyStr → Bool) (now : PyStr) (inputDir : PyStr)
    (root : Option FSEntry) (absBase : PyStr) (title descr : Option PyStr)
    (xdc xfc mc : PyStr) :
    analyse fm now inputDir root absBase title descr xdc xfc mc =
      analyseFuel fm now inputDir root absBase title descr xdc xfc mc := by
  cases root with
  | none => rfl
  | some rootEntry => simp only [analyse, analyseFuel, buildHierarchy_eval]

/-! ### Observers and structural lemmas -/

/-- Structural induction over filesystem entries, descending into the
entry lists of directories. -/
theorem FSEntry.inductionDeep (P : FSEntry → Prop)
    (hfile : ∀ n r a m, P (.file n r a m))
    (hdir : ∀ n es, (∀ e ∈ es, P e) → P (.dir n es)) : ∀ e, P e := by
  have key : ∀ k e, fuelOf e ≤ k → P e := by
    intro k
    induction k with
    | zero =>
      intro e h
      have := fuelOf_pos e
      omega
    | succ k ih =>
      intro e h
      match e with
      | .file n r a m => exact hfile n r a m
      | .dir n es =>
        apply hdir
        intro x hx
        apply ih
        have := fuelOf_le_fuelList es x hx
        rw [fuelOf] at h
        omega
  intro e
  exact key (fuelOf e) e (le_refl _)

/-- Every node contributed for an item is the recursive build of that
item. -/
theorem mem_itemContribution (fm : PyStr → PyStr → Bool) (now : PyStr)
    (xd xf : List PyStr) (p : PyStr) (item : FSEntry) (c : HierarchyNode)
    (hc : c ∈ itemContribution fm now xd xf p item) :
    c = buildHierarchy fm now xd xf (p ++ ['/'] ++ item.name) item := by
  cases item with
  | file n r a m =>
    rw [itemContribution.eq_def] at hc
    simp only at hc
    split at hc
    · cases hc
    · split at hc
      · cases hc
      · split at hc
        · rw [List.mem_singleton] at hc
          exact hc
        · cases hc
  | dir n es =>
    rw [itemContribution.eq_def] at hc
    simp only at hc
    split at hc
    · cases hc
    · split at hc
      · cases hc
      · split at hc
        · rename_i hfold
          split at hc
          · cases hc
          · rw [List.mem_singleton] at hc
            rw [hc, hfold]
        · cases hc

/-- A built node is named after its entry. -/
theorem nodeName_buildHierarchy (fm : PyStr → PyStr → Bool) (now : PyStr)
    (xd xf : List PyStr) (p : PyStr) (e : FSEntry) :
    (buildHierarchy fm now xd xf p e).nodeName = e.name := by
  cases e with
  | file n r a m =>
    rw [buildHierarchy_file, analyseFile.eq_def]
    cases r <;> rfl
  | dir n es =>
    rw [buildHierarchy_dir]
    rfl

/-- An item contributes at most one node. -/
theorem itemContribution_length_le (fm : PyStr → PyStr → Bool) (now : PyStr)
    (xd xf : List PyStr) (p : PyStr) (item : FSEntry) :
    (itemContribution fm now xd xf p item).length ≤ 1 := by
  cases item with
  | file n r a m =>
    rw [itemContribution.eq_def]
    simp only
    split
    · simp
    · split
      · simp
      · split <;> simp
  | dir n es =>
    rw [itemContribution.eq_def]
    simp only
    split
    · simp
    · split
      · simp
      · split
        · split <;> simp
        · simp

/-! ### Line classifier arithmetic -/

theorem classifyLine_total (st : ClassState) (l : PyStr) :
    (classifyLine st l).code + (classifyLine st l).comment + (classifyLine st l).other =
      st.code + st.comment + st.other + 1 := by
  simp only [classifyLine, restOfLine]
  repeat' split
  all_goals simp +arith

theorem foldl_classifyLine_total (lines : List PyStr) :
    ∀ st : ClassState,
      (lines.foldl classifyLine st).code + (lines.foldl classifyLine st).comment +
        (lines.foldl classifyLine st).other =
      st.code + st.comment + st.other + lines.length := by
  induction lines with
  | nil => intro st; simp
  | cons l rest ih =>
    intro st
    rw [List.foldl_cons, List.length_cons, ih (classifyLine st l), classifyLine_total]
    omega

theorem splitOnChar_length (sep : Char) (s : PyStr) :
    (splitOnChar sep s).length = s.count sep + 1 := by
  induction s with
  | nil => simp [splitOnChar]
  | cons c rest ih =>
    rw [splitOnChar]
    by_cases h : c = sep
    · simp only [h, if_pos rfl, List.length_cons, List.count_cons]
      simp [ih]
    · rw [if_neg h]
      rcases hs : splitOnChar sep rest with _ | ⟨l, ls⟩
      · rw [hs] at ih
        simp at ih
      · simp only [List.length_cons]
        rw [hs] at ih
        simp only [List.length_cons] at ih
        rw [List.count_cons]
        simp [h, ih]

theorem foldl_fallbackNomStep_eq (lines : List PyStr) :
    ∀ n, lines.foldl fallbackNomStep n =
      n + (lines.filter
        (fun l => defKw.isPrefixOf (pyStrip l) && [':'].isSuffixOf (pyStrip l))).length := by
  induction lines with
  | nil => intro n; simp
  | cons l rest ih =>
    intro n
    rw [List.foldl_cons, List.filter_cons]
    by_cases h : (defKw.isPrefixOf (pyStrip l) && [':'].isSuffixOf (pyStrip l)) = true
    · rw [if_pos h, ih]
      rw [fallbackNomStep]
      simp only [h, if_pos]
      simp +arith
    · rw [if_neg h, ih]
      rw [fallbackNomStep]
      simp only [Bool.not_eq_true] at h
      simp [h]

/-! ### Claim theorems -/

/-- C4: for every input text, the line classifier counts each line as at
most one of code/comment (each loop iteration increments exactly one of
the three counters), so `codeLines + commentLines + blankOrOtherLines`
equals `totalLines`, and `totalLines` (the number of segments produced by
splitting on the newline character, which is what `__calculate_metrics`
reports as `tloc`) equals the number of newline characters plus one — a
text ending in a newline thus contributes a final empty segment. -/
theorem c4_line_exclusivity_and_total (content : PyStr) :
    (classifyContent content).code + (classifyContent content).comment +
        (classifyContent content).other = (splitLines content).length ∧
    (splitLines content).length = content.count '\n' + 1 := by
  constructor
  · have h := foldl_classifyLine_total (splitLines content) initState
    simpa [classifyContent, initState] using h
  · exact splitOnChar_length '\n' content

/-- C5: when the syntax parse fails (`astNom = none`, modelling a
`SyntaxError` from `ast.parse`), the metrics calculation still returns a
value (the exception is caught inside the metrics step): `nom` is the
number of lines whose trimmed form starts with `"def "` and ends with
`":"`, and the other three metrics are computed as usual.  In this
degraded mode an asynchronous definition (`async def f():`) and a
multi-line signature (`def f(\n    x):`) contribute no `nom` count. -/
theorem c5_parse_failure_fallback (content : PyStr) :
    calculateMetrics none content =
      [(str "loc", (classifyContent content).code),
       (str "cloc", (classifyContent content).comment),
       (str "nom", ((splitLines content).filter
         (fun l => defKw.isPrefixOf (pyStrip l) && [':'].isSuffixOf (pyStrip l))).length),
       (str "tloc", (splitLines content).length)] ∧
    (calculateMetrics none (str "async def f():\n")).lookup (str "nom") = some 0 ∧
    (calculateMetrics none (str "def f(\n    x):\n")).lookup (str "nom") = some 0 := by
  refine ⟨?_, by decide, by decide⟩
  rw [calculateMetrics]
  simp only [foldl_fallbackNomStep_eq, Nat.zero_add]

/-- C3 counterexample: on the input `"def f():\n    pass\n"` the computed
`tloc` is `3`, not `2` as the claim states — the trailing newline yields a
final empty segment which the split counts.  (`astNom = some 1` models the
successful `ast.parse` of this input, whose tree holds exactly one
function definition; `tloc` does not depend on that oracle.) -/
theorem c3_example_tloc_not_two :
    (calculateMetrics (some 1) (str "def f():\n    pass\n")).lookup (str "tloc") = some 3 ∧
    (some 3 : Option Nat) ≠ some 2 := by
  decide

/-- C3 (amended): on the input `"def f():\n    pass\n"` the per-file
metrics calculation returns `loc = 2`, `cloc = 0`, `nom = 1` and
`tloc = 3` (`astNom = some 1` models the successful parse with one
function definition). -/
theorem c3_example_metrics :
    calculateMetrics (some 1) (str "def f():\n    pass\n") =
      [(str "loc", 2), (str "cloc", 0), (str "nom", 1), (str "tloc", 3)] := by
  decide

/-! ### Orchestrator-level facts -/

/-- Unfolding of `analyse` on an existing root: the report's metric list
is the full catalog for an empty request, the recognised subset for a
mixed request, and an invalid-input error when nothing is recognised. -/
theorem analyse_some_unfold (fm : PyStr → PyStr → Bool) (now i ab : PyStr)
    (t d : Option PyStr) (xd xf mc : PyStr) (e : FSEntry) :
    analyse fm now i (some e) ab t d xd xf mc =
      if (parseCsvParam mc).isEmpty then
        .ok ⟨str "1.0", t.getD ab, d.getD (str "Analysis of " ++ t.getD ab), allMetrics,
             buildHierarchy fm now (parseCsvParam xd) (parseCsvParam xf) i e⟩
      else if ((parseCsvParam mc).filterMap
          (fun mid => allMetrics.find? (fun m => m.id == mid))).isEmpty then
        .error (str "No valid metrics found in: " ++
          List.intercalate (str ",") (parseCsvParam mc))
      else
        .ok ⟨str "1.0", t.getD ab, d.getD (str "Analysis of " ++ t.getD ab),
             (parseCsvParam mc).filterMap (fun mid => allMetrics.find? (fun m => m.id == mid)),
             buildHierarchy fm now (parseCsvParam xd) (parseCsvParam xf) i e⟩ := by
  rw [analyse]
  by_cases h1 : (parseCsvParam mc).isEmpty
  · simp [h1]
  · by_cases h2 : ((parseCsvParam mc).filterMap
        (fun mid => allMetrics.find? (fun m => m.id == mid))).isEmpty
    · simp [h1, h2]
    · simp [h1, h2]

/-- A catalog lookup fails exactly for ids outside the fixed catalog. -/
theorem find?_allMetrics_eq_none (mid : PyStr) :
    (allMetrics.find? (fun m => m.id == mid) = none) ↔
      mid ∉ [str "loc", str "cloc", str "nom", str "tloc"] := by
  rw [List.find?_eq_none]
  simp only [allMetrics, List.mem_cons, List.not_mem_nil, or_false, beq_iff_eq]
  constructor
  · intro h hmem
    rcases hmem with rfl | rfl | rfl | rfl
    · exact h _ (Or.inl rfl) rfl
    · exact h _ (Or.inr (Or.inl rfl)) rfl
    · exact h _ (Or.inr (Or.inr (Or.inl rfl))) rfl
    · exact h _ (Or.inr (Or.inr (Or.inr rfl))) rfl
  · intro h x hx he
    apply h
    rcases hx with rfl | rfl | rfl | rfl
    · exact Or.inl he.symm
    · exact Or.inr (Or.inl he.symm)
    · exact Or.inr (Or.inr (Or.inl he.symm))
    · exact Or.inr (Or.inr (Or.inr he.symm))

/-- C8: on an existing root, `analyse` raises an invalid-input error
exactly when the requested-metrics list parses to a non-empty list none
of whose entries is a catalog id; an empty request is no error and the
report carries all four metric definitions in catalog order
`loc, cloc, nom, tloc`. -/
theorem c8_invalid_metrics_error (fm : PyStr → PyStr → Bool) (now i ab : PyStr)
    (t d : Option PyStr) (xd xf mc : PyStr) (e : FSEntry) :
    ((∃ msg, analyse fm now i (some e) ab t d xd xf mc = .error msg) ↔
      (parseCsvParam mc ≠ [] ∧
        ∀ mid ∈ parseCsvParam mc, mid ∉ [str "loc", str "cloc", str "nom", str "tloc"])) ∧
    (∃ pd, analyse fm now i (some e) ab t d xd xf (str "") = .ok pd ∧
      pd.metrics = allMetrics ∧
      pd.metrics.map MetricDef.id = [str "loc", str "cloc", str "nom", str "tloc"]) := by
  constructor
  · rw [analyse_some_unfold]
    by_cases h1 : (parseCsvParam mc).isEmpty
    · rw [if_pos h1]
      rw [List.isEmpty_iff] at h1
      constructor
      · rintro ⟨msg, hmsg⟩
        cases hmsg
      · rintro ⟨hne, _⟩
        exact absurd h1 hne
    · rw [if_neg h1]
      rw [List.isEmpty_iff] at h1
      by_cases h2 : ((parseCsvParam mc).filterMap
          (fun mid => allMetrics.find? (fun m => m.id == mid))).isEmpty
      · rw [if_pos h2]
        rw [List.isEmpty_iff, List.filterMap_eq_nil_iff] at h2
        constructor
        · intro _
          exact ⟨h1, fun mid hmid => (find?_allMetrics_eq_none mid).mp (h2 mid hmid)⟩
        · intro _
          exact ⟨_, rfl⟩
      · rw [if_neg h2]
        constructor
        · rintro ⟨msg, hmsg⟩
          cases hmsg
        · rintro ⟨hne, hall⟩
          exfalso
          apply h2
          rw [List.isEmpty_iff, List.filterMap_eq_nil_iff]
          exact fun mid hmid => (find?_allMetrics_eq_none mid).mpr (hall mid hmid)
  · rw [analyse_some_unfold]
    rw [if_pos (by decide : (parseCsvParam (str "")).isEmpty = true)]
    exact ⟨_, rfl, rfl,
      (by decide : allMetrics.map MetricDef.id = [str "loc", str "cloc", str "nom", str "tloc"])⟩

/-- C2 counterexample: requesting metrics `"loc,bogus"` on an existing
directory does **not** raise — the run returns a full report whose metric
list is the recognised subset `[loc]` (the claim asserts a `ValueError`
and no report). -/
theorem c2_loc_bogus_returns_report :
    analyse noFm (str "NOW") (str "proj")
      (some (.dir (str "proj")
        [.file (str "a.py") (some (str "def f(): pass")) (some 1) (str "T")]))
      (str "proj") none none (str "") (str "") (str "loc,bogus") =
    .ok ⟨str "1.0", str "proj", str "Analysis of proj",
      [⟨str "loc", str "Lines of Code", str "Number of non-empty, non-comment lines",
        str "number", str "sum", true⟩],
      .folder (str "proj") [.file (str "a.py") (str "python") (str "T")
        [(str "loc",1),(str "cloc",0),(str "nom",1),(str "tloc",1)] [] []]⟩ := by
  rw [analyse_eval]
  rfl

/-- C2 (amended): requesting metrics `"loc,bogus"` on any existing root
succeeds, and the report's metric-definition list is the recognised
subset `[loc]`; the unrecognised id is silently dropped (an error occurs
only when no entry at all is recognised). -/
theorem c2_loc_bogus_filters (fm : PyStr → PyStr → Bool) (now i ab : PyStr)
    (t d : Option PyStr) (xd xf : PyStr) (e : FSEntry) :
    ∃ pd, analyse fm now i (some e) ab t d xd xf (str "loc,bogus") = .ok pd ∧
      pd.metrics.map MetricDef.id = [str "loc"] := by
  rw [analyse_some_unfold]
  rw [if_neg (by decide : ¬ ((parseCsvParam (str "loc,bogus")).isEmpty = true))]
  rw [if_neg (by decide : ¬ (((parseCsvParam (str "loc,bogus")).filterMap
    (fun mid => allMetrics.find? (fun m => m.id == mid))).isEmpty = true))]
  exact ⟨_, rfl,
    (by decide : ((parseCsvParam (str "loc,bogus")).filterMap
      (fun mid => allMetrics.find? (fun m => m.id == mid))).map MetricDef.id = [str "loc"])⟩

/-- C10: input validation checks only existence, not directory-ness:
with the default (empty) metrics request, `analyse` fails exactly when
the root oracle reports a missing path, and an existing regular file as
root yields a report whose hierarchy is the file's `FileNode` (the
single-file analysis result), not a folder. -/
theorem c10_existence_only_validation (fm : PyStr → PyStr → Bool) (now i ab : PyStr)
    (t d : Option PyStr) (xd xf : PyStr) :
    (∃ msg, analyse fm now i none ab t d xd xf (str "") = .error msg) ∧
    (∀ e msg, analyse fm now i (some e) ab t d xd xf (str "") ≠ .error msg) ∧
    (∀ n r a m, ∃ pd,
      analyse fm now i (some (.file n r a m)) ab t d xd xf (str "") = .ok pd ∧
      pd.hierarchy = analyseFile now n r a m ∧
      pd.hierarchy.isFileNode = true) := by
  refine ⟨⟨_, rfl⟩, ?_, ?_⟩
  · intro e msg h
    rw [analyse_some_unfold,
      if_pos (by decide : (parseCsvParam (str "")).isEmpty = true)] at h
    cases h
  · intro n r a m
    rw [analyse_some_unfold,
      if_pos (by decide : (parseCsvParam (str "")).isEmpty = true)]
    refine ⟨_, rfl, buildHierarchy_file fm now _ _ i n r a m, ?_⟩
    show (buildHierarchy fm now _ _ i (.file n r a m)).isFileNode = true
    rw [buildHierarchy_file, analyseFile.eq_def]
    cases r <;> rfl

/-! ### Per-file metric key sets (C1) -/

theorem allFileMetricKeysList_iff (ks : List PyStr) (cs : List HierarchyNode) :
    allFileMetricKeysList ks cs = true ↔ ∀ c ∈ cs, allFileMetricKeys ks c = true := by
  induction cs with
  | nil => simp [allFileMetricKeysList]
  | cons c rest ih =>
    rw [allFileMetricKeysList, Bool.and_eq_true, ih]
    simp

/-- The metrics mapping always carries the four catalog keys in catalog
order, whatever the parse oracle and content. -/
theorem calculateMetrics_keys (astNom : Option Nat) (content : PyStr) :
    (calculateMetrics astNom content).map Prod.fst =
      [str "loc", str "cloc", str "nom", str "tloc"] := rfl

/-- Every file node of a built hierarchy carries exactly the four catalog
keys. -/
theorem allFileMetricKeys_buildHierarchy (fm : PyStr → PyStr → Bool) (now : PyStr)
    (xd xf : List PyStr) (e : FSEntry) :
    ∀ p, allFileMetricKeys [str "loc", str "cloc", str "nom", str "tloc"]
      (buildHierarchy fm now xd xf p e) = true := by
  induction e using FSEntry.inductionDeep with
  | hfile n r a m =>
    intro p
    rw [buildHierarchy_file, analyseFile.eq_def]
    cases r with
    | some content =>
      rw [allFileMetricKeys, calculateMetrics_keys]
      simp
    | none =>
      rw [allFileMetricKeys]
      decide
  | hdir n es ih =>
    intro p
    rw [buildHierarchy_dir, allFileMetricKeys, allFileMetricKeysList_iff]
    intro c hc
    rw [List.mem_flatMap] at hc
    obtain ⟨item, hitem, hcontrib⟩ := hc
    rw [mem_itemContribution fm now xd xf p item c hcontrib]
    exact ih item ((List.mem_insertionSort nameLe).mp hitem) _

/-- C1 counterexample: a run requesting only the proper subset `{loc}`
still produces a `FileNode` whose metrics mapping has all four catalog
keys `loc, cloc, nom, tloc` — not the requested set: the orchestrator
never filters the per-file mappings. -/
theorem c1_subset_request_full_keys :
    analyse noFm (str "NOW") (str "proj")
      (some (.dir (str "proj")
        [.file (str "b.py") (some (str "def f(): pass")) (some 1) (str "T")]))
      (str "proj") none none (str "") (str "") (str "loc") =
    .ok ⟨str "1.0", str "proj", str "Analysis of proj",
      [⟨str "loc", str "Lines of Code", str "Number of non-empty, non-comment lines",
        str "number", str "sum", true⟩],
      .folder (str "proj") [.file (str "b.py") (str "python") (str "T")
        [(str "loc",1),(str "cloc",0),(str "nom",1),(str "tloc",1)] [] []]⟩ ∧
    ([str "loc", str "cloc", str "nom", str "tloc"] : List PyStr) ≠ [str "loc"] := by
  refine ⟨?_, by decide⟩
  rw [analyse_eval]
  rfl

/-- C1 (amended): in every successful run — whatever subset of metrics
was requested — every `FileNode` of the returned hierarchy has a metrics
mapping whose key list is exactly the full catalog `loc, cloc, nom,
tloc`; the requested ids only filter the report's metric-definition
list, never the per-file mappings. -/
theorem c1_filenode_keys_full_catalog (fm : PyStr → PyStr → Bool) (now i ab : PyStr)
    (t d : Option PyStr) (xd xf mc : PyStr) (root : Option FSEntry) (pd : ProjectData)
    (h : analyse fm now i root ab t d xd xf mc = .ok pd) :
    allFileMetricKeys [str "loc", str "cloc", str "nom", str "tloc"] pd.hierarchy = true := by
  cases root with
  | none => cases h
  | some e =>
    rw [analyse_some_unfold] at h
    by_cases h1 : (parseCsvParam mc).isEmpty
    · rw [if_pos h1] at h
      cases h
      exact allFileMetricKeys_buildHierarchy fm now _ _ e i
    · rw [if_neg h1] at h
      by_cases h2 : ((parseCsvParam mc).filterMap
          (fun mid => allMetrics.find? (fun m => m.id == mid))).isEmpty
      · rw [if_pos h2] at h
        cases h
      · rw [if_neg h2] at h
        cases h
        exact allFileMetricKeys_buildHierarchy fm now _ _ e i

/-- C1 witness: the amended theorem applied to a concrete run requesting
only `loc`. -/
theorem c1_filenode_keys_witness :
    allFileMetricKeys [str "loc", str "cloc", str "nom", str "tloc"]
      (HierarchyNode.folder (str "proj") [.file (str "b.py") (str "python") (str "T")
        [(str "loc",1),(str "cloc",0),(str "nom",1),(str "tloc",1)] [] []]) = true :=
  c1_filenode_keys_full_catalog noFm (str "NOW") (str "proj") (str "proj")
    none none (str "") (str "") (str "loc")
    (some (.dir (str "proj")
      [.file (str "b.py") (some (str "def f(): pass")) (some 1) (str "T")]))
    ⟨str "1.0", str "proj", str "Analysis of proj",
      [⟨str "loc", str "Lines of Code", str "Number of non-empty, non-comment lines",
        str "number", str "sum", true⟩],
      .folder (str "proj") [.file (str "b.py") (str "python") (str "T")
        [(str "loc",1),(str "cloc",0),(str "nom",1),(str "tloc",1)] [] []]⟩
    (by rw [analyse_eval]; rfl)

/-! ### Degraded file nodes (C6) -/

/-- C6: a file whose read/decode/parse raised an escaping exception
(`read = none`) still yields a `FileNode` — with all four metrics zero
and the current wall-clock time as last-modified — and that node is
present among its parent folder's children whenever the file passes the
hidden/exclusion/extension filters (degradation never omits the file). -/
theorem c6_failed_read_zeroed_present (fm : PyStr → PyStr → Bool) (now : PyStr)
    (xd xf : List PyStr) (p pn name : PyStr) (astNom : Option Nat) (mtime : PyStr)
    (entries : List FSEntry)
    (hmem : FSEntry.file name none astNom mtime ∈ entries)
    (hhid : ['.'].isPrefixOf name = false)
    (hexc : shouldExcludeFile fm (p ++ ['/'] ++ name) name xf = false)
    (hpy : (str ".py").isSuffixOf name = true) :
    analyseFile now name none astNom mtime =
      .file name (str "python") now
        [(str "loc", 0), (str "cloc", 0), (str "nom", 0), (str "tloc", 0)] [] [] ∧
    analyseFile now name none astNom mtime ∈
      (buildHierarchy fm now xd xf p (.dir pn entries)).childrenOf := by
  refine ⟨rfl, ?_⟩
  rw [buildHierarchy_dir, HierarchyNode.childrenOf, List.mem_flatMap]
  refine ⟨FSEntry.file name none astNom mtime, (List.mem_insertionSort nameLe).mpr hmem, ?_⟩
  rw [itemContribution.eq_def]
  simp only [FSEntry.name, hhid, hexc, hpy, Bool.false_eq_true, if_false, if_true]
  rw [buildHierarchy_file]
  exact List.mem_singleton.mpr rfl

/-- C6 witness: the theorem applied to a one-file directory whose file
fails to read. -/
theorem c6_failed_read_witness :
    analyseFile (str "NOW") (str "c.py") none none (str "TT") =
      .file (str "c.py") (str "python") (str "NOW")
        [(str "loc", 0), (str "cloc", 0), (str "nom", 0), (str "tloc", 0)] [] [] ∧
    analyseFile (str "NOW") (str "c.py") none none (str "TT") ∈
      (buildHierarchy noFm (str "NOW") [] [] (str "proj")
        (.dir (str "proj") [.file (str "c.py") none none (str "TT")])).childrenOf :=
  c6_failed_read_zeroed_present noFm (str "NOW") [] [] (str "proj") (str "proj")
    (str "c.py") none (str "TT") [.file (str "c.py") none none (str "TT")]
    (List.mem_singleton.mpr rfl) (by decide) (by decide) (by decide)

/-! ### Folder pruning (C7) -/

theorem noEmptyFoldersList_iff (cs : List HierarchyNode) :
    noEmptyFoldersList cs = true ↔
      ∀ c ∈ cs, childOk c = true ∧ noEmptyFolders c = true := by
  induction cs with
  | nil => simp [noEmptyFoldersList]
  | cons c rest ih =>
    rw [noEmptyFoldersList, Bool.and_eq_true, Bool.and_eq_true, ih]
    simp

theorem childOk_mem_itemContribution (fm : PyStr → PyStr → Bool) (now : PyStr)
    (xd xf : List PyStr) (p : PyStr) (item : FSEntry) (c : HierarchyNode)
    (hc : c ∈ itemContribution fm now xd xf p item) : childOk c = true := by
  cases item with
  | file n r a m =>
    have h := mem_itemContribution fm now xd xf p _ c hc
    rw [h, buildHierarchy_file, analyseFile.eq_def]
    cases r <;> rfl
  | dir n es =>
    rw [itemContribution.eq_def] at hc
    simp only at hc
    split at hc
    · cases hc
    · split at hc
      · cases hc
      · split at hc
        · rename_i hfold
          split at hc
          · cases hc
          · rename_i hne
            rw [List.mem_singleton] at hc
            rw [hc, childOk]
            simpa using hne
        · cases hc

theorem noEmptyFolders_buildHierarchy (fm : PyStr → PyStr → Bool) (now : PyStr)
    (xd xf : List PyStr) (e : FSEntry) :
    ∀ p, noEmptyFolders (buildHierarchy fm now xd xf p e) = true := by
  induction e using FSEntry.inductionDeep with
  | hfile n r a m =>
    intro p
    rw [buildHierarchy_file, analyseFile.eq_def]
    cases r <;> rfl
  | hdir n es ih =>
    intro p
    rw [buildHierarchy_dir, noEmptyFolders, noEmptyFoldersList_iff]
    intro c hc
    rw [List.mem_flatMap] at hc
    obtain ⟨item, hitem, hcontrib⟩ := hc
    refine ⟨childOk_mem_itemContribution fm now xd xf p item c hcontrib, ?_⟩
    rw [mem_itemContribution fm now xd xf p item c hcontrib]
    exact ih item ((List.mem_insertionSort nameLe).mp hitem) _

/-- C7: (i) in every built hierarchy, every folder appearing in a child
list has at least one child (so a directory whose recursive result is
empty never appears in its parent's children); (ii) a directory's node
is always a `FolderNode` whose children are the per-item contributions
over the sorted entries — in particular the root invocation returns a
`FolderNode` even for an empty directory; (iii) a directory item whose
recursive result has no children contributes nothing to its parent;
(iv) a surviving (non-hidden, non-excluded, `.py`) file item always
contributes exactly its `FileNode` — files are never pruned. -/
theorem c7_empty_folder_pruning (fm : PyStr → PyStr → Bool) (now : PyStr)
    (xd xf : List PyStr) (p n d fname : PyStr) (des entries : List FSEntry)
    (r : Option PyStr) (a : Option Nat) (m : PyStr) :
    (∀ e q, noEmptyFolders (buildHierarchy fm now xd xf q e) = true) ∧
    buildHierarchy fm now xd xf p (.dir n entries) =
      .folder n ((entries.insertionSort nameLe).flatMap (itemContribution fm now xd xf p)) ∧
    buildHierarchy fm now xd xf p (.dir n []) = .folder n [] ∧
    ((buildHierarchy fm now xd xf (p ++ ['/'] ++ d) (.dir d des)).childrenOf = [] →
      itemContribution fm now xd xf p (.dir d des) = []) ∧
    (['.'].isPrefixOf fname = false →
      shouldExcludeFile fm (p ++ ['/'] ++ fname) fname xf = false →
      (str ".py").isSuffixOf fname = true →
      itemContribution fm now xd xf p (.file fname r a m) =
        [analyseFile now fname r a m]) := by
  refine ⟨fun e q => noEmptyFolders_buildHierarchy fm now xd xf e q,
    buildHierarchy_dir fm now xd xf p n entries, ?_, ?_, ?_⟩
  · rw [buildHierarchy_dir]
    rfl
  · intro h
    rw [buildHierarchy_dir, HierarchyNode.childrenOf] at h
    rw [itemContribution.eq_def]
    simp only [FSEntry.name]
    split
    · rfl
    · split
      · rfl
      · rw [buildHierarchy_dir, h]
        rfl
  · intro hhid hexc hpy
    rw [itemContribution.eq_def]
    simp only [FSEntry.name, hhid, hexc, hpy, Bool.false_eq_true, if_false, if_true]
    rw [buildHierarchy_file]

/-! ### Deterministic child ordering (C9) -/

theorem nodeName_mem_itemContribution (fm : PyStr → PyStr → Bool) (now : PyStr)
    (xd xf : List PyStr) (p : PyStr) (item : FSEntry) (c : HierarchyNode)
    (hc : c ∈ itemContribution fm now xd xf p item) :
    c.nodeName = item.name := by
  rw [mem_itemContribution fm now xd xf p item c hc]
  exact nodeName_buildHierarchy fm now xd xf _ item

theorem pairwise_of_length_le_one {R : HierarchyNode → HierarchyNode → Prop}
    (l : List HierarchyNode) (h : l.length ≤ 1) : l.Pairwise R := by
  match l with
  | [] => exact List.Pairwise.nil
  | [x] => exact List.pairwise_singleton R x
  | x :: y :: rest => simp at h

theorem children_names_sorted (fm : PyStr → PyStr → Bool) (now : PyStr)
    (xd xf : List PyStr) (p n : PyStr) (es : List FSEntry) :
    ((buildHierarchy fm now xd xf p (.dir n es)).childrenOf.map
      HierarchyNode.nodeName).Sorted (· ≤ ·) := by
  rw [buildHierarchy_dir, HierarchyNode.childrenOf]
  rw [List.Sorted, List.pairwise_map, List.pairwise_flatMap]
  constructor
  · intro a _
    exact pairwise_of_length_le_one _ (itemContribution_length_le fm now xd xf p a)
  · have hs : (es.insertionSort nameLe).Sorted nameLe := List.sorted_insertionSort nameLe es
    refine hs.imp ?_
    intro a b hab x hx y hy
    rw [nodeName_mem_itemContribution fm now xd xf p a x hx,
      nodeName_mem_itemContribution fm now xd xf p b y hy]
    exact hab

/-- The stable name-sort is determined by the multiset of entries when
names are distinct: any two enumeration orders sort to the same list. -/
theorem insertionSort_nameLe_eq (es1 es2 : List FSEntry) (hperm : es1.Perm es2)
    (hnodup : (es1.map FSEntry.name).Nodup) :
    es1.insertionSort nameLe = es2.insertionSort nameLe := by
  have hp : (es1.insertionSort nameLe).Perm (es2.insertionSort nameLe) :=
    (List.perm_insertionSort nameLe es1).trans
      (hperm.trans (List.perm_insertionSort nameLe es2).symm)
  have hs1 : (es1.insertionSort nameLe).Sorted nameLe := List.sorted_insertionSort nameLe es1
  have hs2 : (es2.insertionSort nameLe).Sorted nameLe := List.sorted_insertionSort nameLe es2
  have hn1 : ((es1.insertionSort nameLe).map FSEntry.name).Nodup :=
    (((List.perm_insertionSort nameLe es1).map FSEntry.name).nodup_iff).mpr hnodup
  have hn2 : ((es2.insertionSort nameLe).map FSEntry.name).Nodup :=
    ((hp.map FSEntry.name).nodup_iff).mp hn1
  have key : ∀ (l : List FSEntry), l.Sorted nameLe → (l.map FSEntry.name).Nodup →
      l.Pairwise (fun a b => a.name < b.name) := by
    intro l hs hn
    have hpn : l.Pairwise (fun a b => a.name ≠ b.name) := List.pairwise_map.mp hn
    exact (hs.and hpn).imp (fun h => lt_of_le_of_ne h.1 h.2)
  haveI : IsAntisymm FSEntry (fun a b => a.name < b.name) :=
    ⟨fun a b h1 h2 => (lt_asymm h1 h2).elim⟩
  exact List.eq_of_perm_of_sorted hp (key _ hs1 hn1) (key _ hs2 hn2)

/-- C9: a folder's children appear in lexicographic order of name, and
(for physically possible directories, whose entry names are distinct)
the built hierarchy does not depend on the order in which the filesystem
enumerated the entries. -/
theorem c9_children_sorted_and_order_independent (fm : PyStr → PyStr → Bool)
    (now : PyStr) (xd xf : List PyStr) (p n : PyStr) (es1 es2 : List FSEntry)
    (hperm : es1.Perm es2) (hnodup : (es1.map FSEntry.name).Nodup) :
    ((buildHierarchy fm now xd xf p (.dir n es1)).childrenOf.map
      HierarchyNode.nodeName).Sorted (· ≤ ·) ∧
    buildHierarchy fm now xd xf p (.dir n es1) =
      buildHierarchy fm now xd xf p (.dir n es2) := by
  refine ⟨children_names_sorted fm now xd xf p n es1, ?_⟩
  rw [buildHierarchy_dir, buildHierarchy_dir, insertionSort_nameLe_eq es1 es2 hperm hnodup]

/-- C9 witness: the theorem applied to a two-file directory enumerated in
reverse lexicographic order. -/
theorem c9_order_independent_witness :
    ((buildHierarchy noFm (str "NOW") [] [] (str "p")
        (.dir (str "r")
          [.file (str "b.py") (some (str "y=2")) (some 0) (str "T2"),
           .file (str "a.py") (some (str "x=1")) (some 0) (str "T1")])).childrenOf.map
      HierarchyNode.nodeName).Sorted (· ≤ ·) ∧
    buildHierarchy noFm (str "NOW") [] [] (str "p")
      (.dir (str "r")
        [.file (str "b.py") (some (str "y=2")) (some 0) (str "T2"),
         .file (str "a.py") (some (str "x=1")) (some 0) (str "T1")]) =
    buildHierarchy noFm (str "NOW") [] [] (str "p")
      (.dir (str "r")
        [.file (str "a.py") (some (str "x=1")) (some 0) (str "T1"),
         .file (str "b.py") (some (str "y=2")) (some 0) (str "T2")]) :=
  c9_children_sorted_and_order_independent noFm (str "NOW") [] [] (str "p") (str "r")
    [.file (str "b.py") (some (str "y=2")) (some 0) (str "T2"),
     .file (str "a.py") (some (str "x=1")) (some 0) (str "T1")]
    [.file (str "a.py") (some (str "x=1")) (some 0) (str "T1"),
     .file (str "b.py") (some (str "y=2")) (some 0) (str "T2")]
    (List.Perm.swap (FSEntry.file (str "a.py") (some (str "x=1")) (some 0) (str "T1"))
      (FSEntry.file (str "b.py") (some (str "y=2")) (some 0) (str "T2")) [])
    (by decide)

end PythonAnalyser
